import Mathlib

/-!
# Verification of the yt2convert download/convert orchestration core

Shallow embedding of the orchestration logic of `src/main.py`
(`DownloadWorker.run`, the format/quality/codec tables, the history
recording step of `ModernMainWindow._on_download_finish`), together with
theorems settling the specification claims.

Modelling conventions:
  * Python strings are Lean `String`s; f-string interpolation becomes `++`.
  * Python dicts used as ordered tables become association lists
    (`List (String × _)`) in source insertion order; `d[k]` / `k in d`
    become `List.lookup`.
  * Machine floats (the progress percentages) are modelled as `ℚ`;
    the only operations involved are `*`, `min` and comparison.
  * Subprocess output is modelled as the list of lines read (post
    `str.strip`, as the worker strips each line before using it).
  * The cooperative cancellation flag `_stop_requested` is modelled by the
    index `stop` of the first loop-iteration check at which the flag is
    observed set (the flag is only ever set, never cleared, so it is
    monotone); `stop` larger than every check index means "never set".
-/

namespace Yt2Convert

/-! ## Generic character-list string machinery (spec-side predicates) -/

/-- Does `pat` occur as a contiguous sublist of `s`? -/
def listContainsSub (pat : List Char) : List Char → Bool
  | [] => pat.isEmpty
  | c :: rest => pat.isPrefixOf (c :: rest) || listContainsSub pat rest

/-- Whether `s` contains `pat` as a substring. -/
def strContains (s pat : String) : Bool :=
  listContainsSub pat.data s.data

/-- Does `a` occur in `s`, with an occurrence of `b` after its end? -/
def occursBeforeL (a b : List Char) : List Char → Bool
  | [] => a.isEmpty && b.isEmpty
  | c :: rest =>
    if a.isPrefixOf (c :: rest) then listContainsSub b ((c :: rest).drop a.length)
    else occursBeforeL a b rest

/-- Whether `s` contains `a` and, after that occurrence of `a`, also `b`. -/
def occursBefore (a b s : String) : Bool :=
  occursBeforeL a.data b.data s.data

/-! ## The compatibility tables of `src/main.py` (lines 53–122) -/

/-- One setting of `AUDIO_FORMATS`: MP3 entries carry a bitrate, WAV
entries a sample rate; both carry a transcoder codec. -/
structure AudioSetting where
  bitrate : Option String := none
  codec : String
  sample_rate : Option String := none
  deriving DecidableEq, Repr

/-- Table `AUDIO_FORMATS` (main.py lines 53–66), in source insertion order. -/
def AUDIO_FORMATS : List (String × List (String × AudioSetting)) :=
  [("MP3",
     [("320 kbps", { bitrate := some "320k", codec := "libmp3lame" }),
      ("256 kbps", { bitrate := some "256k", codec := "libmp3lame" }),
      ("192 kbps", { bitrate := some "192k", codec := "libmp3lame" }),
      ("128 kbps", { bitrate := some "128k", codec := "libmp3lame" }),
      ("64 kbps",  { bitrate := some "64k",  codec := "libmp3lame" })]),
   ("WAV",
     [("32-bit (48 kHz)",   { codec := "pcm_f32le", sample_rate := some "48000" }),
      ("24-bit (48 kHz)",   { codec := "pcm_s24le", sample_rate := some "48000" }),
      ("16-bit (44.1 kHz)", { codec := "pcm_s16le", sample_rate := some "44100" })])]

/-- One entry of `VIDEO_CODEC_FORMATS`. -/
structure CodecInfo where
  format_selector : String
  common_name : String
  audio_codec : String
  deriving DecidableEq, Repr

/-- Table `VIDEO_CODEC_FORMATS` (main.py lines 69–85). -/
def VIDEO_CODEC_FORMATS : List (String × CodecInfo) :=
  [("H.264 (AVC)", { format_selector := "avc1", common_name := "h264", audio_codec := "aac" }),
   ("VP9",         { format_selector := "vp9",  common_name := "vp9",  audio_codec := "opus" }),
   ("AV1",         { format_selector := "av01", common_name := "av1",  audio_codec := "opus" })]

/-- One entry of `CODEC_RESOLUTION_MATRIX`: height plus the `common` flag. -/
structure ResInfo where
  height : Nat
  common : Bool
  deriving DecidableEq, Repr

/-- Table `CODEC_RESOLUTION_MATRIX` (main.py lines 88–111), outer and inner
lists in source insertion order (dict iteration order in the code). -/
def CODEC_RESOLUTION_MATRIX : List (String × List (String × ResInfo)) :=
  [("H.264 (AVC)",
     [("1080p", ⟨1080, true⟩), ("720p", ⟨720, true⟩), ("480p", ⟨480, true⟩),
      ("360p", ⟨360, true⟩), ("240p", ⟨240, false⟩), ("144p", ⟨144, false⟩)]),
   ("VP9",
     [("2160p (4K)", ⟨2160, true⟩), ("1440p (2K)", ⟨1440, true⟩), ("1080p", ⟨1080, true⟩),
      ("720p", ⟨720, true⟩), ("480p", ⟨480, false⟩), ("360p", ⟨360, false⟩)]),
   ("AV1",
     [("2160p (4K)", ⟨2160, true⟩), ("1440p (2K)", ⟨1440, false⟩),
      ("1080p", ⟨1080, false⟩), ("720p", ⟨720, false⟩)])]

/-- Table `RESOLUTION_CODEC_MATRIX` (main.py lines 113–122). -/
def RESOLUTION_CODEC_MATRIX : List (String × List String) :=
  [("2160p (4K)", ["VP9", "AV1"]),
   ("1440p (2K)", ["VP9", "AV1"]),
   ("1080p", ["H.264 (AVC)", "VP9"]),
   ("720p", ["H.264 (AVC)", "VP9"]),
   ("480p", ["H.264 (AVC)"]),
   ("360p", ["H.264 (AVC)"]),
   ("240p", ["H.264 (AVC)"]),
   ("144p", ["H.264 (AVC)"])]

/-! ## The video format-selector resolver (main.py lines 657–694) -/

/-- Numeric value of a digit string (Python `int` on a digit string). -/
def digitsToNat (l : List Char) : Nat :=
  l.foldl (fun n c => n * 10 + (c.toNat - 48)) 0

/-- Embedding of `re.search(r'(\d+)p', resolution)` (main.py line 675):
the leftmost maximal ASCII digit run immediately followed by `p`, as a
number.  `run` is the digit run accumulated so far, most recent first. -/
def firstDigitsPAux (run : List Char) : List Char → Option Nat
  | [] => none
  | c :: rest =>
    if c.isDigit then
      match rest with
      | 'p' :: _ => some (digitsToNat (c :: run).reverse)
      | _ => firstDigitsPAux (c :: run) rest
    else firstDigitsPAux [] rest

/-- Search a string for the pattern digits-then-`p` (main.py lines 674–676). -/
def firstDigitsP (s : List Char) : Option Nat :=
  firstDigitsPAux [] s

/-- The height the worker resolves for a resolution label found in the
matrix: the first codec table of `CODEC_RESOLUTION_MATRIX` containing the
label wins (the `for … break` loop at main.py lines 668–671). -/
def heightOf (resolution : String) : Option Nat :=
  (CODEC_RESOLUTION_MATRIX.findSome? fun p =>
    (List.lookup resolution p.2).map fun r => r.height)

/-- Height actually used once the guard of line 666 has passed: the matrix
height if found, else the regex fallback of lines 673–676 (720 when the
label has no digits-`p` component). -/
def resolvedHeight (resolution : String) : Nat :=
  match heightOf resolution with
  | some h => h
  | none =>
    match firstDigitsP resolution.data with
    | some n => n
    | none => 720

/-- Height constraint parts appended at main.py lines 666–678: a height
constraint is produced only for labels (other than "Best Available") that
are keys of `RESOLUTION_CODEC_MATRIX`. -/
def heightParts (resolution : String) : List String :=
  if resolution ≠ "Best Available" ∧ (List.lookup resolution RESOLUTION_CODEC_MATRIX).isSome then
    ["height<=" ++ toString (resolvedHeight resolution)]
  else []

/-- Codec constraint parts appended at main.py lines 680–682. -/
def codecParts (codec : String) : List String :=
  match List.lookup codec VIDEO_CODEC_FORMATS with
  | some ci => if codec ≠ "Best Available" then ["vcodec^=" ++ ci.format_selector] else []
  | none => []

/-- List `format_parts` of main.py lines 664–682 (height first, codec second). -/
def formatParts (resolution codec : String) : List String :=
  heightParts resolution ++ codecParts codec

/-- Effective codec label: `self.codec_choice or "Best Available"`
(main.py line 659); Python treats both `None` and `""` as falsy. -/
def effectiveCodec (codecChoice : Option String) : String :=
  match codecChoice with
  | none => "Best Available"
  | some c => if c = "" then "Best Available" else c

/-- The `-f` format-selector string for a video download, embedding
main.py lines 657–694. -/
def videoFormatString (resolution : String) (codecChoice : Option String) : String :=
  let codec := effectiveCodec codecChoice
  if resolution = "Best Available" ∧ codec = "Best Available" then
    "bestvideo+bestaudio/best"
  else
    let parts := formatParts resolution codec
    if parts ≠ [] then
      let constraints := "[" ++ String.intercalate "][" parts ++ "]"
      if codec = "H.264 (AVC)" then
        "bestvideo" ++ constraints ++ "+bestaudio[acodec^=mp4a]/best" ++ constraints ++
          "/bestvideo+bestaudio/best"
      else
        "bestvideo" ++ constraints ++ "+bestaudio/best" ++ constraints ++
          "/bestvideo+bestaudio/best"
    else
      "bestvideo+bestaudio/best"

/-! ## Download-progress parsing (main.py lines 725–733)

The worker recognises `re.search(r'(\d+\.?\d*)%', line)` on lines that
contain both `"[download]"` and `"%"`.  The regex is embedded as a
left-to-right scan: a maximal digit run, an optional dot with a further
digit run, immediately followed by `%`; the leftmost such occurrence wins.
The Python `float` of the matched group is modelled exactly in `ℚ`. -/

/-- Scanner state: outside a candidate, inside the integer digit run, or
after the optional dot (digit runs are stored most-recent-first). -/
inductive ScanState where
  | start
  | intPart (r : List Char)
  | fracPart (r f : List Char)

/-- Value of a matched group `r "." f` (runs stored reversed). -/
def ratOfDigits (r f : List Char) : ℚ :=
  (digitsToNat r.reverse : ℚ) + (digitsToNat f.reverse : ℚ) / (10 ^ f.length)

/-- One left-to-right pass implementing the percentage regex search. -/
def pctAux : ScanState → List Char → Option ℚ
  | _, [] => none
  | s, c :: rest =>
    match s with
    | .start => if c.isDigit then pctAux (.intPart [c]) rest else pctAux .start rest
    | .intPart r =>
      if c.isDigit then pctAux (.intPart (c :: r)) rest
      else if c = '.' then pctAux (.fracPart r []) rest
      else if c = '%' then some (ratOfDigits r [])
      else pctAux .start rest
    | .fracPart r f =>
      if c.isDigit then pctAux (.fracPart r (c :: f)) rest
      else if c = '%' then some (ratOfDigits r f)
      else if c = '.' then (if f.isEmpty then pctAux .start rest else pctAux (.fracPart f []) rest)
      else pctAux .start rest

/-- Leftmost percentage match in a character stream. -/
def findPercent (s : List Char) : Option ℚ :=
  pctAux .start s

/-- The percentage the worker parses from a download-phase output line
(main.py lines 725–730): the regex is consulted only on lines containing
both `"[download]"` and `"%"`. -/
def parsedPercent (line : String) : Option ℚ :=
  if strContains line "[download]" && strContains line "%" then findPercent line.data
  else none

/-- The progress value emitted for a download-phase line
(`min(80.0, pct * 0.8)`, main.py line 731), if any. -/
def downloadProgressEvent (line : String) : Option ℚ :=
  (parsedPercent line).map fun pct => min 80 (pct * (8 / 10))

/-! ## Worker events and the download read loop (main.py lines 700–760) -/

/-- Observable actions of the worker: Qt signal emissions plus the
`proc.terminate()` call.  `finished` models `finished_success`; the
payload dict's fields other than `outfile` are elided (no claim mentions
them). -/
inductive Ev where
  | progress (value : ℚ)
  | status (kind msg : String)
  | log (line : String)
  | terminate
  | finished (outfile : String)
  deriving DecidableEq, Repr

/-- Events emitted on observing the stop flag inside a read loop
(main.py lines 711–714 and 809–812): terminate the subprocess, report the
cancellation, return. -/
def cancelEvents : List Ev :=
  [Ev.terminate, Ev.status "error" "Operation cancelled by user."]

/-- Python `line.split(":", 1)[1]`, when a colon is present. -/
def afterFirstColon : List Char → Option (List Char)
  | [] => none
  | c :: rest => if c = ':' then some rest else afterFirstColon rest

/-- Strip a character class from both ends (Python `str.strip`). -/
def stripEnds (p : Char → Bool) (l : List Char) : List Char :=
  ((l.dropWhile p).reverse.dropWhile p).reverse

/-- Destination-filename capture (main.py lines 736–739). -/
def parseDestination (line : String) : Option String :=
  if strContains line "[download] Destination:" || strContains line "Merging formats into" then
    match afterFirstColon line.data with
    | some rest => some ⟨stripEnds (· = '"') (stripEnds Char.isWhitespace rest)⟩
    | none => none
  else none

/-- Handling of one (stripped) stdout line in the download loop
(main.py lines 720–739): log it, possibly emit a capped progress value,
possibly learn the destination filename. -/
def processLine (line : String) (df : Option String) : List Ev × Option String :=
  (Ev.log line ::
     (match downloadProgressEvent line with
      | some q => [Ev.progress q]
      | none => []),
   match parseDestination line with
   | some d => some d
   | none => df)

/-- The download read loop (main.py lines 710–739).  `stop` is the first
check index at which `_stop_requested` is observed set; `i` the current
check index; the loop checks the flag once per iteration, including the
final iteration that observes end-of-stream.  Result: events paired with
`none` (cancelled) or `some df` (completed with learned destination). -/
def downloadLoop (stop : Nat) : Nat → List String → Option String → List Ev × Option (Option String)
  | i, [], df => if stop ≤ i then (cancelEvents, none) else ([], some df)
  | i, l :: rest, df =>
    if stop ≤ i then (cancelEvents, none)
    else
      let r := processLine l df
      let r2 := downloadLoop stop (i + 1) rest r.2
      (r.1 ++ r2.1, r2.2)

/-- The ffmpeg stderr read loop (main.py lines 808–817): same cancellation
protocol, each line logged; returns `true` when cancelled. -/
def convLoop (stop : Nat) : Nat → List String → List Ev × Bool
  | i, [] => if stop ≤ i then (cancelEvents, true) else ([], false)
  | i, l :: rest =>
    if stop ≤ i then (cancelEvents, true)
    else
      let r := convLoop stop (i + 1) rest
      (Ev.log l :: r.1, r.2)

/-! ## File reconciliation (main.py lines 746–756 and 837–847) -/

/-- One comparison step of Python `max(files, key=mtime)`: the incumbent
is replaced only on a strictly larger key (ties keep the first). -/
def mtimeStep (best x : String × Nat) : String × Nat :=
  if best.2 < x.2 then x else best

/-- Python `max(files, key=mtime)`: first element with maximal mtime. -/
def mostRecent (files : List (String × Nat)) : Option (String × Nat) :=
  match files with
  | [] => none
  | f :: rest => some (rest.foldl mtimeStep f)

/-- Fallback of main.py lines 748–754: most-recently-modified file of the
output directory, or the typed error when the directory is empty. -/
def fallbackLocate (dirFiles : List (String × Nat)) : Except String String :=
  match mostRecent dirFiles with
  | some f => .ok f.1
  | none => .error "Could not locate downloaded file."

/-- Locating the downloaded file after the download phase (main.py lines
746–756).  `df` is the destination learned from the output (Python
`downloaded_file`, falsy when `None` or empty), `fileExists` the
`os.path.exists` view, `dirFiles` the `(name, mtime)` listing of the
output directory. -/
def locateDownloaded (df : Option String) (fileExists : String → Bool)
    (dirFiles : List (String × Nat)) : Except String String :=
  match df with
  | some f => if f ≠ "" ∧ fileExists f then .ok f else fallbackLocate dirFiles
  | none => fallbackLocate dirFiles

/-- The guard `not downloaded_file or not os.path.exists(downloaded_file)`
of main.py line 747 (Python falsiness: `None` and `""`). -/
def needsFallback (df : Option String) (fileExists : String → Bool) : Bool :=
  match df with
  | none => true
  | some f => f == "" || !fileExists f

/-- Post-conversion cleanup (main.py lines 837–847): the file system is
the list of existing path strings, `resolve` the `Path.resolve` view; the
intermediate download is unlinked when it still exists and resolves
differently from the final output. -/
def cleanupIntermediate (resolve : String → String) (fs : List String)
    (downloadedPath outPath : String) : List String :=
  if downloadedPath ∈ fs ∧ resolve downloadedPath ≠ resolve outPath then
    fs.filter (fun p => p != downloadedPath)
  else fs

/-! ## Output naming and transcoder arguments (main.py lines 762–798) -/

/-- Python `Path(path).name`: the component after the last path separator. -/
def baseNameOf (path : List Char) : List Char :=
  (path.reverse.takeWhile (fun c => c != '/' && c != '\\')).reverse

/-- Python `Path(name).stem` on a file name: drop the last-dot suffix unless the
dot is the first or last character of the name. -/
def stemOf (name : List Char) : List Char :=
  match name.reverse with
  | [] => []
  | '.' :: _ => name
  | r =>
    match r.dropWhile (fun c => c != '.') with
    | '.' :: more => if more.isEmpty then name else more.reverse
    | _ => name

/-- Python `Path(p).name` as a string. -/
def fileNameOf (p : String) : String :=
  ⟨baseNameOf p.data⟩

/-- Variable `base_title` (main.py lines 763–765); `nowStamp` stands for the
wall-clock timestamp used when the stem starts with `yt_`. -/
def baseTitleOf (downloadedPath nowStamp : String) : String :=
  let stem : String := ⟨stemOf (baseNameOf downloadedPath.data)⟩
  if stem.startsWith "yt_" then "video_" ++ nowStamp else stem

/-- Characters kept by the sanitizer of main.py line 766
(`c.isalnum() or c in " .-_()"`, ASCII view of `isalnum`). -/
def pySafeChar (c : Char) : Bool :=
  c.isAlphanum || c = ' ' || c = '.' || c = '-' || c = '_' || c = '(' || c = ')'

/-- Variable `safe_basename` (main.py line 766). -/
def safeBasename (title : String) : String :=
  ⟨stripEnds Char.isWhitespace (title.data.filter pySafeChar)⟩

/-- Python `str.upper()` (character-wise, ASCII view). -/
def pyUpper (s : String) : String :=
  ⟨s.data.map Char.toUpper⟩

/-- Python `str.lower()` (character-wise, ASCII view). -/
def pyLower (s : String) : String :=
  ⟨s.data.map Char.toLower⟩

/-- Variable `out_ext` (main.py lines 768–771). -/
def outExt (formatChoice : String) : String :=
  if formatChoice = "MP3" ∨ formatChoice = "WAV" then pyLower formatChoice else "mp4"

/-- Lookup `AUDIO_FORMATS[self.format_choice.upper()][self.quality_choice]`
(main.py line 781), as a total lookup: `none` models the `KeyError`. -/
def audioSettingsFor (formatChoice quality : String) : Option AudioSetting :=
  (List.lookup (pyUpper formatChoice) AUDIO_FORMATS).bind fun table => List.lookup quality table

/-- The ffmpeg argument list (main.py lines 783–798). -/
def ffmpegArgs (ffmpegPath downloadedPath outPath formatChoice quality : String) :
    Option (List String) := do
  let st ← audioSettingsFor formatChoice quality
  if outExt formatChoice = "mp3" then
    let br ← st.bitrate
    pure [ffmpegPath, "-y", "-i", downloadedPath, "-vn", "-map", "0:a",
          "-c:a", st.codec, "-b:a", br, outPath]
  else
    let sr ← st.sample_rate
    pure [ffmpegPath, "-y", "-i", downloadedPath, "-vn", "-map", "0:a",
          "-c:a", st.codec, "-ar", sr, outPath]

/-! ## The whole worker run (main.py lines 531–866)

Parameters that the code obtains from the environment (subprocess output
lines, exit codes, file-system views, the clock) are fields of
`WorkerRunInput`.  Unmodelled for lack of any observable effect on the
claims: subprocess launch exceptions, the mp3 tagging block (lines
826–835, at most a warning log), and rename failure of the pure-video
branch (lines 849–855, assumed to succeed). -/

structure WorkerRunInput where
  formatChoice : String
  qualityChoice : String
  codecChoice : Option String
  outdir : String
  ffmpegExists : Bool
  ytdlpExists : Bool
  ffmpegPath : String
  stop : Nat
  lines : List String
  exitCode : Int
  fileExists : String → Bool
  dirFiles : List (String × Nat)
  ffmpegLines : List String
  ffmpegExit : Int
  resolve : String → String
  nowStamp : String

/-- Python `os.path.join`, modelled with a forward-slash separator. -/
def joinPath (dir name : String) : String :=
  dir ++ "/" ++ name

/-- The sequence of observable events of one `DownloadWorker.run`. -/
def runWorker (inp : WorkerRunInput) : List Ev :=
  if !inp.ffmpegExists then
    [Ev.status "error" "FFmpeg not found. Make sure ffmpeg is bundled with the application."]
  else if !inp.ytdlpExists then
    [Ev.status "error" "yt-dlp.exe not found. Please wait for automatic download or check settings."]
  else
    let startEvs := [Ev.log "Starting yt-dlp download...", Ev.status "info" "Starting download..."]
    let dl := downloadLoop inp.stop 0 inp.lines none
    match dl.2 with
    | none => startEvs ++ dl.1
    | some df =>
      if inp.exitCode ≠ 0 then
        startEvs ++ dl.1 ++
          [Ev.status "error" ("yt-dlp failed with exit code " ++ toString inp.exitCode ++ ".")]
      else
        match locateDownloaded df inp.fileExists inp.dirFiles with
        | .error msg => startEvs ++ dl.1 ++ [Ev.status "error" msg]
        | .ok downloadedPath =>
          let baseTitle := baseTitleOf downloadedPath inp.nowStamp
          let ext := outExt inp.formatChoice
          let outPath := joinPath inp.outdir (safeBasename baseTitle ++ "." ++ ext)
          let dlEvs := startEvs ++ dl.1 ++ [Ev.log ("Downloaded to: " ++ downloadedPath)]
          if inp.formatChoice = "MP3" ∨ inp.formatChoice = "WAV" then
            dlEvs ++ [Ev.status "info" "Converting audio..."] ++
              (match ffmpegArgs inp.ffmpegPath downloadedPath outPath inp.formatChoice
                  inp.qualityChoice with
               -- a missing table entry raises KeyError in Python, killing the
               -- worker thread before any further event
               | none => []
               | some _ =>
                 let conv := convLoop inp.stop (inp.lines.length + 1) inp.ffmpegLines
                 if conv.2 then conv.1
                 else if inp.ffmpegExit ≠ 0 then
                   conv.1 ++
                     [Ev.status "error"
                       ("ffmpeg failed with exit code " ++ toString inp.ffmpegExit ++ ".")]
                 else
                   let cleanupEvs :=
                     if inp.fileExists downloadedPath ∧
                         inp.resolve downloadedPath ≠ inp.resolve outPath then
                       [Ev.log ("Removed intermediate file: " ++ fileNameOf downloadedPath)]
                     else []
                   conv.1 ++ cleanupEvs ++
                     [Ev.progress 100, Ev.status "success" ("Saved: " ++ outPath),
                      Ev.finished outPath])
          else
            let renameEvs :=
              if downloadedPath ≠ outPath then [Ev.log ("Renamed video file to: " ++ outPath)]
              else []
            dlEvs ++ renameEvs ++
              [Ev.progress 100, Ev.status "success" ("Saved: " ++ outPath),
               Ev.finished outPath]

/-! ## History recording (main.py lines 1893–1906) -/

/-- One history entry (`format` is the dict key `"format"`). -/
structure HistoryEntry where
  outfile : String
  title : String
  format : String
  quality : String
  codec : String
  timestamp : String
  deriving DecidableEq, Repr

/-- The `ModernMainWindow._on_download_finish` history update (main.py line
1902): prepend the new entry and drop every older entry with the same
`outfile`. -/
def recordFinish (entry : HistoryEntry) (history : List HistoryEntry) : List HistoryEntry :=
  entry :: history.filter (fun e => e.outfile != entry.outfile)

/-! ## Concrete data used by witnesses -/

/-- A sample history entry. -/
def entryA : HistoryEntry :=
  { outfile := "out/a.mp3", title := "a", format := "mp3", quality := "320 kbps",
    codec := "", timestamp := "2026-10-12T10:00:00" }

/-- A second sample history entry with a different output file. -/
def entryB : HistoryEntry :=
  { outfile := "out/b.mp3", title := "b", format := "mp3", quality := "192 kbps",
    codec := "", timestamp := "2026-10-12T09:00:00" }

/-- A sample worker input whose stop flag is raised during the download
read loop (at check index 1, while two output lines are pending). -/
def sampleInput : WorkerRunInput :=
  { formatChoice := "MP3", qualityChoice := "320 kbps", codecChoice := none,
    outdir := "out", ffmpegExists := true, ytdlpExists := true,
    ffmpegPath := "ffmpeg.exe", stop := 1,
    lines := ["[download]  10.0% of 5MiB", "[download]  50.0% of 5MiB"],
    exitCode := 0, fileExists := fun _ => true, dirFiles := [],
    ffmpegLines := [], ffmpegExit := 0, resolve := id, nowStamp := "ts" }

/-! ## Theorems -/

/-- Helper: the fallback alternative survives as a suffix through any
prefix prepended by `++`. -/
theorem suffix_through_append (x : List Char) :
    "bestvideo+bestaudio/best".data <:+ x ++ "/bestvideo+bestaudio/best".data :=
  List.IsSuffix.trans ⟨['/'], rfl⟩ (List.suffix_append x _)

/-- C1: for every resolution label in `RESOLUTION_CODEC_MATRIX` and codec
label in `VIDEO_CODEC_FORMATS`, the format-selector string contains the
table height ceiling `[height<=H]` and the codec prefix constraint
`[vcodec^=P]`, the height constraint occurring before the codec one. -/
theorem C1_height_before_codec (resolution codec : String)
    (hres : resolution ∈ RESOLUTION_CODEC_MATRIX.map Prod.fst)
    (hcodec : codec ∈ VIDEO_CODEC_FORMATS.map Prod.fst) :
    ∃ h ci, heightOf resolution = some h ∧
      List.lookup codec VIDEO_CODEC_FORMATS = some ci ∧
      occursBefore ("[height<=" ++ toString h ++ "]")
        ("[vcodec^=" ++ ci.format_selector ++ "]")
        (videoFormatString resolution (some codec)) = true := by
  simp only [RESOLUTION_CODEC_MATRIX, VIDEO_CODEC_FORMATS, List.map] at hres hcodec
  fin_cases hres <;> fin_cases hcodec <;> exact ⟨_, _, rfl, rfl, by decide⟩

/-- Witness for C1 at the pair (1080p, VP9). -/
theorem C1_witness :
    ("1080p" ∈ RESOLUTION_CODEC_MATRIX.map Prod.fst) ∧
    ("VP9" ∈ VIDEO_CODEC_FORMATS.map Prod.fst) ∧
    (∃ h ci, heightOf "1080p" = some h ∧
      List.lookup "VP9" VIDEO_CODEC_FORMATS = some ci ∧
      occursBefore ("[height<=" ++ toString h ++ "]")
        ("[vcodec^=" ++ ci.format_selector ++ "]")
        (videoFormatString "1080p" (some "VP9")) = true) :=
  ⟨by decide, by decide, C1_height_before_codec "1080p" "VP9" (by decide) (by decide)⟩

/-- C2 counterexample: the label "Ultra HD" matches neither `<digits>p`
nor "Best Available", yet the produced format-selector string does not
contain "height<=720" — the claimed 720 fallback does not happen for
labels outside `RESOLUTION_CODEC_MATRIX`. -/
theorem C2_counterexample :
    ("Ultra HD" ≠ "Best Available" ∧ firstDigitsP "Ultra HD".data = none) ∧
    strContains (videoFormatString "Ultra HD" (some "VP9")) "height<=720" = false := by
  decide

/-- C2 (amended): a quality label that is not a key of
`RESOLUTION_CODEC_MATRIX` yields no height constraint at all, and for
every key of `RESOLUTION_CODEC_MATRIX` the height is found in
`CODEC_RESOLUTION_MATRIX`, so the regex/720 fallback of main.py lines
673–676 is never reached. -/
theorem C2_amended_no_height_fallback :
    (∀ resolution, List.lookup resolution RESOLUTION_CODEC_MATRIX = none →
      heightParts resolution = []) ∧
    (∀ resolution, resolution ∈ RESOLUTION_CODEC_MATRIX.map Prod.fst →
      (heightOf resolution).isSome) := by
  constructor
  · intro resolution h
    simp [heightParts, h]
  · intro resolution h
    simp only [RESOLUTION_CODEC_MATRIX, List.map] at h
    fin_cases h <;> decide

/-- Witness for the amended C2. -/
theorem C2_amended_witness :
    (List.lookup "Ultra HD" RESOLUTION_CODEC_MATRIX = none ∧ heightParts "Ultra HD" = []) ∧
    ("1080p" ∈ RESOLUTION_CODEC_MATRIX.map Prod.fst ∧ (heightOf "1080p").isSome) :=
  ⟨⟨by decide, C2_amended_no_height_fallback.1 "Ultra HD" (by decide)⟩,
   ⟨by decide, C2_amended_no_height_fallback.2 "1080p" (by decide)⟩⟩

/-- C8: for every video request the format-selector string ends with the
unconstrained alternative "bestvideo+bestaudio/best". -/
theorem C8_unconstrained_fallback (resolution : String) (codecChoice : Option String) :
    "bestvideo+bestaudio/best".data <:+ (videoFormatString resolution codecChoice).data := by
  simp only [videoFormatString]
  split
  · exact List.suffix_refl _
  · split
    · split
      · simp only [String.data_append]
        exact suffix_through_append _
      · simp only [String.data_append]
        exact suffix_through_append _
    · exact List.suffix_refl _

/-- C3: whenever a percentage `p` is parsed from a download-phase output
line, the emitted progress value is exactly `min 80 (p * 0.8)`, and no
download-phase progress value ever exceeds 80. -/
theorem C3_progress_capped (line : String) (p : ℚ)
    (h : parsedPercent line = some p) :
    downloadProgressEvent line = some (min 80 (p * (8 / 10))) ∧
    ∀ q, downloadProgressEvent line = some q → q ≤ 80 := by
  constructor
  · simp [downloadProgressEvent, h]
  · intro q hq
    simp only [downloadProgressEvent, h, Option.map_some', Option.some.injEq] at hq
    rw [← hq]
    exact min_le_left _ _

/-- Witness for C3 on a realistic yt-dlp progress line. -/
theorem C3_witness :
    parsedPercent "[download]  45.3% of ~10.00MiB at 2.00MiB/s" = some (453 / 10) ∧
    (downloadProgressEvent "[download]  45.3% of ~10.00MiB at 2.00MiB/s" =
        some (min 80 ((453 / 10) * (8 / 10))) ∧
      ∀ q, downloadProgressEvent "[download]  45.3% of ~10.00MiB at 2.00MiB/s" = some q →
        q ≤ 80) := by
  have hr : ratOfDigits ['5', '4'] ['3'] = 453 / 10 := by
    have h1 : digitsToNat (['5', '4'].reverse) = 45 := rfl
    have h2 : digitsToNat (['3'].reverse) = 3 := rfl
    simp only [ratOfDigits, h1, h2, List.length_singleton]
    norm_num
  have hp : parsedPercent "[download]  45.3% of ~10.00MiB at 2.00MiB/s" =
      some (ratOfDigits ['5', '4'] ['3']) := rfl
  rw [hr] at hp
  exact ⟨hp, C3_progress_capped "[download]  45.3% of ~10.00MiB at 2.00MiB/s" (453 / 10) hp⟩

/-- C7: a WAV request at quality "16-bit (44.1 kHz)" invokes the
transcoder with codec `pcm_s16le` and sample rate `44100`, and the output
extension is "wav". -/
theorem C7_wav_16bit_args (ffmpegPath downloadedPath outPath : String) :
    ffmpegArgs ffmpegPath downloadedPath outPath "WAV" "16-bit (44.1 kHz)" =
      some [ffmpegPath, "-y", "-i", downloadedPath, "-vn", "-map", "0:a",
            "-c:a", "pcm_s16le", "-ar", "44100", outPath] ∧
    outExt "WAV" = "wav" :=
  ⟨rfl, rfl⟩

/-- C9: for every quality label that is a key of the MP3 table, the
settings lookup succeeds (never raises) with a non-empty bitrate from
{320k, 256k, 192k, 128k, 64k} and codec `libmp3lame`. -/
theorem C9_mp3_lookup_total (q : String)
    (h : q ∈ ((List.lookup "MP3" AUDIO_FORMATS).getD []).map Prod.fst) :
    ∃ st br, audioSettingsFor "MP3" q = some st ∧ st.bitrate = some br ∧
      br ≠ "" ∧ br ∈ ["320k", "256k", "192k", "128k", "64k"] ∧
      st.codec = "libmp3lame" ∧ st.codec ≠ "" := by
  have e : ((List.lookup "MP3" AUDIO_FORMATS).getD []).map Prod.fst =
      ["320 kbps", "256 kbps", "192 kbps", "128 kbps", "64 kbps"] := by decide
  rw [e] at h
  fin_cases h <;> exact ⟨_, _, rfl, rfl, by decide, by decide, rfl, by decide⟩

/-- Witness for C9 at quality "192 kbps". -/
theorem C9_witness :
    ("192 kbps" ∈ ((List.lookup "MP3" AUDIO_FORMATS).getD []).map Prod.fst) ∧
    (∃ st br, audioSettingsFor "MP3" "192 kbps" = some st ∧ st.bitrate = some br ∧
      br ≠ "" ∧ br ∈ ["320k", "256k", "192k", "128k", "64k"] ∧
      st.codec = "libmp3lame" ∧ st.codec ≠ "") :=
  ⟨by decide, C9_mp3_lookup_total "192 kbps" (by decide)⟩

/-- Helper: the result of folding `mtimeStep` is one of the candidates. -/
theorem foldl_mtimeStep_mem (f : String × Nat) (rest : List (String × Nat)) :
    rest.foldl mtimeStep f ∈ f :: rest := by
  induction rest generalizing f with
  | nil => simp
  | cons a t ih =>
    simp only [List.foldl_cons]
    rcases List.mem_cons.mp (ih (mtimeStep f a)) with h1 | h1
    · rw [h1]
      unfold mtimeStep
      split
      · simp
      · simp
    · simp [h1]

/-- Helper: the result of folding `mtimeStep` has maximal mtime. -/
theorem foldl_mtimeStep_ge (f : String × Nat) (rest : List (String × Nat)) :
    ∀ p ∈ f :: rest, p.2 ≤ (rest.foldl mtimeStep f).2 := by
  induction rest generalizing f with
  | nil =>
    intro p hp
    simp only [List.mem_singleton] at hp
    rw [hp]
    simp
  | cons a t ih =>
    have hf : f.2 ≤ (mtimeStep f a).2 := by
      unfold mtimeStep
      split
      · omega
      · omega
    have ha : a.2 ≤ (mtimeStep f a).2 := by
      unfold mtimeStep
      split
      · omega
      · omega
    intro p hp
    simp only [List.foldl_cons]
    rcases List.mem_cons.mp hp with h1 | h1
    · rw [h1]
      exact hf.trans (ih (mtimeStep f a) _ (List.mem_cons_self _ _))
    · rcases List.mem_cons.mp h1 with h2 | h2
      · rw [h2]
        exact ha.trans (ih (mtimeStep f a) _ (List.mem_cons_self _ _))
      · exact ih (mtimeStep f a) p (List.mem_cons_of_mem _ h2)

/-- C6: when no destination filename was learned (or the learned path is
falsy/does not exist), the worker falls back to the most-recently-modified
file of the output directory; an empty directory aborts with the typed
"Could not locate downloaded file." error. -/
theorem C6_locate_fallback (df : Option String) (fileExists : String → Bool)
    (dirFiles : List (String × Nat))
    (h : needsFallback df fileExists = true) :
    (dirFiles = [] →
      locateDownloaded df fileExists dirFiles = .error "Could not locate downloaded file.") ∧
    (∀ g, locateDownloaded df fileExists dirFiles = .ok g →
      ∃ m, (g, m) ∈ dirFiles ∧ ∀ p ∈ dirFiles, p.2 ≤ m) := by
  have hloc : locateDownloaded df fileExists dirFiles = fallbackLocate dirFiles := by
    cases df with
    | none => rfl
    | some f =>
      simp only [needsFallback] at h
      simp only [locateDownloaded]
      rw [if_neg]
      rintro ⟨hne, hex⟩
      rcases Bool.or_eq_true_iff.mp h with h1 | h1
      · exact hne (by simpa using h1)
      · rw [hex] at h1
        simp at h1
  constructor
  · intro hnil
    rw [hloc, hnil]
    rfl
  · intro g hg
    rw [hloc] at hg
    cases dirFiles with
    | nil => simp [fallbackLocate, mostRecent] at hg
    | cons f rest =>
      simp only [fallbackLocate, mostRecent, Except.ok.injEq] at hg
      refine ⟨(rest.foldl mtimeStep f).2, ?_, foldl_mtimeStep_ge f rest⟩
      rw [← hg]
      simpa using foldl_mtimeStep_mem f rest

/-- Witness for C6: no destination learned, two files on disk, the newer
one is selected. -/
theorem C6_witness :
    needsFallback none (fun _ => true) = true ∧
    (∃ m, (("b.mp4", m) ∈ [("a.webm", 5), ("b.mp4", 9)]) ∧
      ∀ p ∈ [("a.webm", 5), ("b.mp4", 9)], p.2 ≤ m) :=
  ⟨rfl, (C6_locate_fallback none (fun _ => true) [("a.webm", 5), ("b.mp4", 9)] rfl).2
    "b.mp4" rfl⟩

/-- C5: after a successful audio conversion, the intermediate download is
deleted exactly when it resolves to a path different from the final
output; the final output and all unrelated files survive, and equal
resolved paths mean no deletion at all. -/
theorem C5_intermediate_cleanup (resolve : String → String) (fs : List String)
    (downloadedPath outPath : String) :
    (resolve downloadedPath ≠ resolve outPath →
      downloadedPath ∉ cleanupIntermediate resolve fs downloadedPath outPath ∧
      (outPath ∈ fs → outPath ∈ cleanupIntermediate resolve fs downloadedPath outPath) ∧
      (∀ x ∈ fs, x ≠ downloadedPath →
        x ∈ cleanupIntermediate resolve fs downloadedPath outPath)) ∧
    (resolve downloadedPath = resolve outPath →
      cleanupIntermediate resolve fs downloadedPath outPath = fs) := by
  constructor
  · intro hne
    by_cases hmem : downloadedPath ∈ fs
    · unfold cleanupIntermediate
      rw [if_pos ⟨hmem, hne⟩]
      refine ⟨?_, ?_, ?_⟩
      · intro hin
        rcases List.mem_filter.mp hin with ⟨_, hbne⟩
        simp at hbne
      · intro hop
        refine List.mem_filter.mpr ⟨hop, ?_⟩
        have hd : outPath ≠ downloadedPath := fun e => hne (by rw [e])
        simpa using hd
      · intro x hx hxne
        exact List.mem_filter.mpr ⟨hx, by simpa using hxne⟩
    · unfold cleanupIntermediate
      rw [if_neg (fun hc => hmem hc.1)]
      exact ⟨hmem, fun hop => hop, fun x hx _ => hx⟩
  · intro heq
    unfold cleanupIntermediate
    rw [if_neg (fun hc => hc.2 heq)]

/-- Witness for C5 on the spec's scenario: "A.webm" converted to "A.mp3",
the intermediate deleted, the output kept. -/
theorem C5_witness :
    (id "A.webm" ≠ id "A.mp3") ∧
    ("A.webm" ∉ cleanupIntermediate id ["A.webm", "A.mp3"] "A.webm" "A.mp3") ∧
    ("A.mp3" ∈ cleanupIntermediate id ["A.webm", "A.mp3"] "A.webm" "A.mp3") :=
  ⟨by decide,
   ((C5_intermediate_cleanup id ["A.webm", "A.mp3"] "A.webm" "A.mp3").1 (by decide)).1,
   ((C5_intermediate_cleanup id ["A.webm", "A.mp3"] "A.webm" "A.mp3").1 (by decide)).2.1
     (by decide)⟩

/-- C10: recording a finished job prepends the new entry and removes
exactly the older entries with the same output file, preserving the order
of the rest; if the history had at most one entry per output path before,
it still does after. -/
theorem C10_history_at_most_one (entry : HistoryEntry) (history : List HistoryEntry)
    (h : ∀ p, history.countP (fun e => e.outfile == p) ≤ 1) :
    (∀ p, (recordFinish entry history).countP (fun e => e.outfile == p) ≤ 1) ∧
    (recordFinish entry history).head? = some entry ∧
    (recordFinish entry history).tail.Sublist history ∧
    (∀ e ∈ (recordFinish entry history).tail, e.outfile ≠ entry.outfile) ∧
    (∀ e ∈ history, e.outfile ≠ entry.outfile → e ∈ (recordFinish entry history).tail) := by
  have htail : (recordFinish entry history).tail =
      history.filter (fun e => e.outfile != entry.outfile) := rfl
  refine ⟨?_, rfl, ?_, ?_, ?_⟩
  · intro p
    show (entry :: history.filter fun e => e.outfile != entry.outfile).countP
        (fun e => e.outfile == p) ≤ 1
    rw [List.countP_cons]
    by_cases hp : (entry.outfile == p) = true
    · have h0 : (history.filter fun e => e.outfile != entry.outfile).countP
          (fun e => e.outfile == p) = 0 := by
        rw [List.countP_eq_zero]
        intro a ha hq
        rcases List.mem_filter.mp ha with ⟨_, hbne⟩
        have h1 : a.outfile = p := by simpa using hq
        have h2 : entry.outfile = p := by simpa using hp
        have h3 : a.outfile ≠ entry.outfile := by simpa using hbne
        exact h3 (h1.trans h2.symm)
      rw [h0]
      simp [hp]
    · have hle : (history.filter fun e => e.outfile != entry.outfile).countP
          (fun e => e.outfile == p) ≤ history.countP (fun e => e.outfile == p) :=
        (List.filter_sublist history).countP_le _
      simp only [hp, if_false]
      simpa using hle.trans (h p)
  · rw [htail]
    exact List.filter_sublist history
  · intro e he
    rw [htail] at he
    rcases List.mem_filter.mp he with ⟨_, hb⟩
    simpa using hb
  · intro e he hne
    rw [htail]
    exact List.mem_filter.mpr ⟨he, by simpa using hne⟩

/-- Witness for C10: a one-entry history receives an entry for a new
output file. -/
theorem C10_witness :
    (∀ p, ([entryB] : List HistoryEntry).countP (fun e => e.outfile == p) ≤ 1) ∧
    ((∀ p, (recordFinish entryA [entryB]).countP (fun e => e.outfile == p) ≤ 1) ∧
      (recordFinish entryA [entryB]).head? = some entryA ∧
      (recordFinish entryA [entryB]).tail.Sublist [entryB] ∧
      (∀ e ∈ (recordFinish entryA [entryB]).tail, e.outfile ≠ entryA.outfile) ∧
      (∀ e ∈ [entryB], e.outfile ≠ entryA.outfile → e ∈ (recordFinish entryA [entryB]).tail)) := by
  have hh : ∀ p, ([entryB] : List HistoryEntry).countP (fun e => e.outfile == p) ≤ 1 := by
    intro p
    rw [List.countP_cons, List.countP_nil]
    split <;> simp
  exact ⟨hh, C10_history_at_most_one entryA [entryB] hh⟩

/-- Helper: a download-loop line produces only log and progress events. -/
theorem processLine_events (l : String) (df : Option String) :
    ∀ e ∈ (processLine l df).1, (∃ s, e = Ev.log s) ∨ ∃ q, e = Ev.progress q := by
  intro e he
  simp only [processLine] at he
  rcases hdl : downloadProgressEvent l with _ | q
  · rw [hdl] at he
    simp at he
    exact Or.inl ⟨l, he⟩
  · rw [hdl] at he
    simp at he
    rcases he with he | he
    · exact Or.inl ⟨l, he⟩
    · exact Or.inr ⟨q, he⟩

/-- Helper: if the stop flag is raised at one of the loop's check
indices, the download loop terminates the subprocess, reports the
cancellation, and yields no completion; everything before the
cancellation pair is a log or progress event. -/
theorem downloadLoop_cancelled (stop : Nat) (ls : List String) :
    ∀ (i : Nat) (df : Option String), stop ≤ i + ls.length →
      ∃ pre, downloadLoop stop i ls df = (pre ++ cancelEvents, none) ∧
        ∀ e ∈ pre, (∃ s, e = Ev.log s) ∨ ∃ q, e = Ev.progress q := by
  induction ls with
  | nil =>
    intro i df h
    have h' : stop ≤ i := by simpa using h
    exact ⟨[], by simp [downloadLoop, h'], by simp⟩
  | cons l rest ih =>
    intro i df h
    by_cases hs : stop ≤ i
    · exact ⟨[], by simp [downloadLoop, hs], by simp⟩
    · have h' : stop ≤ (i + 1) + rest.length := by
        simp only [List.length_cons] at h
        omega
      obtain ⟨pre, heq, hcls⟩ := ih (i + 1) (processLine l df).2 h'
      refine ⟨(processLine l df).1 ++ pre, ?_, ?_⟩
      · simp only [downloadLoop, if_neg hs]
        rw [heq]
        simp [List.append_assoc]
      · intro e he
        rcases List.mem_append.mp he with h1 | h2
        · exact processLine_events l df e h1
        · exact hcls e h2

/-- C4: if the cancellation flag is raised while the download read loop
runs, the worker terminates the downloader, reports the cancellation
message (and no other error), and never emits a completion event. -/
theorem C4_cancelled_no_completion (inp : WorkerRunInput)
    (hff : inp.ffmpegExists = true) (hyt : inp.ytdlpExists = true)
    (hstop : inp.stop ≤ inp.lines.length) :
    Ev.terminate ∈ runWorker inp ∧
    Ev.status "error" "Operation cancelled by user." ∈ runWorker inp ∧
    (∀ m, Ev.status "error" m ∈ runWorker inp → m = "Operation cancelled by user.") ∧
    (∀ f, Ev.finished f ∉ runWorker inp) := by
  obtain ⟨pre, heq, hcls⟩ :=
    downloadLoop_cancelled inp.stop inp.lines 0 none (by simpa using hstop)
  refine ⟨?_, ?_, ?_, ?_⟩
  · simp [runWorker, hff, hyt, heq, cancelEvents]
  · simp [runWorker, hff, hyt, heq, cancelEvents]
  · intro m hm
    simp [runWorker, hff, hyt, heq, cancelEvents] at hm
    rcases hm with hm | hm
    · rcases hcls _ hm with ⟨s, hlog⟩ | ⟨q, hprog⟩
      · simp at hlog
      · simp at hprog
    · exact hm
  · intro f hf
    simp [runWorker, hff, hyt, heq, cancelEvents] at hf
    rcases hcls _ hf with ⟨s, hlog⟩ | ⟨q, hprog⟩
    · simp at hlog
    · simp at hprog

/-- Witness for C4: the flag is raised at check index 1 of a two-line
download. -/
theorem C4_witness :
    sampleInput.ffmpegExists = true ∧ sampleInput.ytdlpExists = true ∧
    sampleInput.stop ≤ sampleInput.lines.length ∧
    (Ev.terminate ∈ runWorker sampleInput ∧
      Ev.status "error" "Operation cancelled by user." ∈ runWorker sampleInput ∧
      (∀ m, Ev.status "error" m ∈ runWorker sampleInput →
        m = "Operation cancelled by user.") ∧
      (∀ f, Ev.finished f ∉ runWorker sampleInput)) :=
  ⟨rfl, rfl, by simp [sampleInput],
   C4_cancelled_no_completion sampleInput rfl rfl (by simp [sampleInput])⟩

end Yt2Convert
